import Mathlib

/-!
Verification of the arXiv daily digest pipeline
(`src/arxiv_daily_digest_simple.py`), shallowly embedded in Lean.

Feed entries are modelled by `RawEntry`; the external feed is an oracle
`fetch : String → List RawEntry` mapping a query URL to parsed entries,
and the mail relay by an `SmtpBehavior` oracle.  Python exceptions are
modelled with `Except`; the caught exception in the category extraction
is made explicit in `extract_categories` / `is_category_allowed`.
-/

namespace ArxivDigest

/-- A feed entry as parsed by the feed library.  `tags = none` models an
entry record with no `tags` attribute at all (attribute access raises,
which the source catches); a present but partially malformed tag list is
modelled by the `Tag` variants. -/
inductive Tag where
  | dict (term : Option String)
  | str (s : String)
  | other
deriving DecidableEq, Repr

structure RawEntry where
  title : String
  summary : String
  authors : List String
  link : String
  published : String
  tags : Option (List Tag)
deriving DecidableEq, Repr

/-- A matched paper record, as built by `search_group`. -/
structure Paper where
  title : String
  authors : String
  summary : String
  link : String
  keyword : String
  group : String
deriving DecidableEq, Repr

/-- The `GroupedResults` mapping: group name to ordered list of matches, in insertion
order (Python dicts preserve insertion order). -/
abbrev GroupedResults := List (String × List Paper)

-- ---------- configuration (module-level constants of the source) ----------

def STRICT_CATEGORY_MODE : Bool := true

def DAYS_BACK : Nat := 5

def KEYWORD_GROUPS : List (String × List String) :=
  [ ("Integrated Photonic Materials",
      ["SiN", "silicon nitride", "AlN", "aluminum nitride",
       "TFLN", "thin-film lithium niobate",
       "BTO", "barium titanate",
       "thin-film lithium tantalate", "lithium tantalate",
       "heterogeneous integration"]),
    ("Nonlinear & EO Devices",
      ["nonlinear frequency conversion", "electro-optic modulator",
       "on-chip comb",
       "acousto-optic", "acousto-optic modulator",
       "optical nonreciprocity", "nonreciprocal optics"]),
    ("Multimodal Imaging & ML",
      ["microsphere imaging", "endomicroscopy",
       "photonic neural network", "on-chip machine learning",
       "optical computing"]),
    ("Quantum Optics & Photonics",
      ["single photon", "quantum source",
       "entangled photons", "quantum interference", "quantum memory"]),
    ("Microwave-to-Optical & Synthetic Dimensions",
      ["microwave-to-optical transducer", "microwave to optical conversion",
       "optomechanical interface", "electromechanical interface",
       "optical synthetic dimension", "synthetic frequency dimension",
       "synthetic photonics"]),
    ("Core Topics (LNOI, Quantum etc)",
      ["LNOI", "lithium niobate", "LiNbO3", "SPDC", "electro-optic",
       "super-resolution imaging", "optical fiber endoscope"]) ]

def CATEGORIES : List String :=
  ["physics.optics", "quant-ph", "eess.SP",
   "cs.CV", "cs.LG", "physics.app-ph"]

def MAX_RESULTS : Nat := 50

def BASE_URL : String := "http://export.arxiv.org/api/query?"

-- ---------- URL building (urllib.parse.quote, search_group's url) ----------

/-- Characters `urllib.parse.quote` leaves unescaped with the default
`safe` argument: unreserved characters plus the slash.  The configuration
strings quoted by the source are all ASCII, for which this byte-level
model coincides with Python. -/
def isUnreservedChar (c : Char) : Bool :=
  c.isAlphanum || c = '_' || c = '.' || c = '-' || c = '~' || c = '/'

def hexDigitChar (n : Nat) : Char :=
  if n < 10 then Char.ofNat (48 + n) else Char.ofNat (55 + n)

def quoteChar (c : Char) : String :=
  if isUnreservedChar c then String.singleton c
  else "%" ++ String.singleton (hexDigitChar (c.toNat / 16))
           ++ String.singleton (hexDigitChar (c.toNat % 16))

def quote (s : String) : String :=
  String.join (s.toList.map quoteChar)

def cat_query : String :=
  String.intercalate "+OR+" (CATEGORIES.map (fun cat => "cat:" ++ quote cat))

def buildUrl (kw : String) : String :=
  BASE_URL ++ "search_query=(ti:" ++ quote kw ++ "+OR+abs:" ++ quote kw
    ++ ")+AND+(" ++ cat_query
    ++ ")&sortBy=submittedDate&sortOrder=descending&max_results="
    ++ toString MAX_RESULTS

-- ---------- entry filtering ----------

-- Python string primitives used by the source, modelled over the
-- character list so that they evaluate by kernel reduction.

/-- The whitespace characters stripped by Python's `str.strip()`. -/
def pySpace (c : Char) : Bool :=
  c == ' ' || c == '\t' || c == '\n' || c == '\r' || c == '\x0b' || c == '\x0c'

/-- Python `s.strip()`. -/
def pyStrip (s : String) : String :=
  ⟨((s.toList.dropWhile pySpace).reverse.dropWhile pySpace).reverse⟩

/-- Python `s.lower()` (the source's strings are ASCII, where this is
character-wise). -/
def pyLower (s : String) : String :=
  ⟨s.toList.map Char.toLower⟩

/-- Python `s.replace('\n', ' ')`: a single-character pattern, hence a
character map. -/
def replaceNewlines (s : String) : String :=
  ⟨s.toList.map fun c => if c == '\n' then ' ' else c⟩

/-- Python `s.split("T")[0]`: the prefix before the first occurrence of
the single-character separator (the whole string when absent). -/
def splitHeadT (s : String) : String :=
  ⟨s.toList.takeWhile fun c => c != 'T'⟩

/-- Whether the first list is an initial segment of the second. -/
def startsWithChars : List Char → List Char → Bool
  | [], _ => true
  | _ :: _, [] => false
  | k :: ks, c :: cs => k == c && startsWithChars ks cs

/-- Python's substring test `kw in text` over character lists. -/
def keyword_matched_aux (kw : List Char) : List Char → Bool
  | [] => kw.isEmpty
  | c :: cs => startsWithChars kw (c :: cs) || keyword_matched_aux kw cs

/-- Source `keyword_matched(text, keyword)`: `keyword.lower() in text.lower()`. -/
def keyword_matched (text kw : String) : Bool :=
  keyword_matched_aux (pyLower kw).toList (pyLower text).toList

/-- The category extraction inside `is_category_allowed`.  Accessing a
missing `tags` attribute raises (`.error`); individual tags that are
neither a dict with a `term` key nor a string are skipped. -/
def extract_categories (e : RawEntry) : Except Unit (List String) :=
  match e.tags with
  | none => .error ()
  | some ts => .ok (ts.filterMap fun t =>
      match t with
      | .dict (some term) => some term
      | .dict none => none
      | .str s => some s
      | .other => none)

/-- Source `is_category_allowed(entry)`: passes unconditionally when strict mode
is off; otherwise collects category identifiers, treating a raised
exception as not-allowed (the bare `except: return False`). -/
def is_category_allowed (strict : Bool) (e : RawEntry) : Bool :=
  if !strict then true
  else
    match extract_categories e with
    | .error _ => false
    | .ok categories => CATEGORIES.any fun cat => categories.contains cat

/-- Python's `<` on strings: lexicographic comparison of the code-point
sequences. -/
def ltChars : List Char → List Char → Bool
  | [], [] => false
  | [], _ :: _ => true
  | _ :: _, [] => false
  | a :: as, b :: bs => a.toNat < b.toNat || (a == b && ltChars as bs)

def pyLt (a b : String) : Bool := ltChars a.toList b.toList

/-- Python's `<=` on strings (`a <= b` iff `not (b < a)`, the order being
total). -/
def pyLe (a b : String) : Bool := !pyLt b a

/-- The per-entry body of the loop in `search_group`: recency check on the
date portion of `published` (`published >= start_date`, a string
comparison of ISO dates), category check, then keyword presence in the
cleaned title or abstract. -/
def entryFilter (startDate : String) (strict : Bool)
    (groupName kw : String) (e : RawEntry) : Option Paper :=
  let published := splitHeadT e.published
  if pyLe startDate published then
    if is_category_allowed strict e then
      let title := replaceNewlines (pyStrip e.title)
      let abstract := replaceNewlines (pyStrip e.summary)
      if keyword_matched title kw || keyword_matched abstract kw then
        some { title := title,
               authors := String.intercalate ", " e.authors,
               summary := abstract,
               link := e.link,
               keyword := kw,
               group := groupName }
      else none
    else none
  else none

/-- Source `search_group(group_name, keywords)`, with the feed call
`feedparser.parse(url).entries` abstracted as the oracle `fetch`. -/
def search_group (fetch : String → List RawEntry) (startDate : String)
    (strict : Bool) (groupName : String) (keywords : List String) : List Paper :=
  keywords.flatMap fun kw =>
    (fetch (buildUrl kw)).filterMap (entryFilter startDate strict groupName kw)

-- ---------- deduplication ----------

/-- The title normalisation used by the deduplicator:
`paper["title"].strip().lower()`. -/
def normTitle (t : String) : String := pyLower (pyStrip t)

/-- The inner loop of `deduplicate_grouped_entries` over one group's
papers, threading the `seen_titles` set (modelled as a list with
membership). -/
def dedupPapers (seen : List String) : List Paper → List Paper × List String
  | [] => ([], seen)
  | p :: ps =>
    let k := normTitle p.title
    if k ∈ seen then dedupPapers seen ps
    else
      let r := dedupPapers (k :: seen) ps
      (p :: r.1, r.2)

/-- The outer loop of `deduplicate_grouped_entries` over the groups: every
group key is written into the output (`deduped[group_name] = []` happens
before the inner loop), and the seen-set is shared across groups. -/
def dedupGroups (seen : List String) : GroupedResults → GroupedResults × List String
  | [] => ([], seen)
  | (name, ps) :: rest =>
    let r1 := dedupPapers seen ps
    let r2 := dedupGroups r1.2 rest
    ((name, r1.1) :: r2.1, r2.2)

/-- Source `deduplicate_grouped_entries(grouped_entries)`. -/
def deduplicate_grouped_entries (g : GroupedResults) : GroupedResults :=
  (dedupGroups [] g).1

/-- The flattened sequence of matches, group order then discovery order. -/
def flattenPapers (g : GroupedResults) : List Paper :=
  g.flatMap fun x => x.2

/-- Modelled from the spec (for the refinement claim on the deduplicator):
a stable first-occurrence-wins filter on normalized titles over a flat
sequence of matches. -/
def firstOccurrenceFilter (seen : List String) : List Paper → List Paper
  | [] => []
  | p :: ps =>
    if normTitle p.title ∈ seen then firstOccurrenceFilter seen ps
    else p :: firstOccurrenceFilter (normTitle p.title :: seen) ps

-- ---------- digest formatting ----------

/-- The fixed body produced when every group is empty:
`"🛑 最近 %d 天内 arXiv 上没有找到匹配关键词的新论文。" % DAYS_BACK`. -/
def noMatchBody : String :=
  "🛑 最近 " ++ toString DAYS_BACK ++ " 天内 arXiv 上没有找到匹配关键词的新论文。"

def introLine : String := "📚 arXiv 关键词论文更新如下：\n"

def headerLine (name : String) (count : Nat) : String :=
  "#### 【" ++ name ++ "】 (" ++ toString count ++ " 篇)\n"

def totalLine (total : Nat) : String :=
  "\n📊 共匹配到 " ++ toString total ++ " 篇论文。"

/-- The six lines appended for one paper, `i` being its 1-based ordinal. -/
def paperLines (i : Nat) (p : Paper) : List String :=
  [ toString i ++ ". " ++ p.title,
    "   作者: " ++ p.authors,
    "   匹配关键词（精确）: " ++ p.keyword,
    "   分类限定: " ++ String.intercalate ", " CATEGORIES,
    "   链接: " ++ p.link,
    "   摘要: " ++ p.summary ++ "\n" ]

/-- The lines for all papers of one group, `enumerate(papers, 1)`. -/
def entriesLines (ps : List Paper) : List String :=
  ps.enum.flatMap fun ip => paperLines (ip.1 + 1) ip.2

/-- One iteration of the group loop in `format_digest`: empty groups are
skipped (`continue`); non-empty groups append a header plus entry lines
and add their length to `total_papers`. -/
def digestStep (acc : List String × Nat) (x : String × List Paper) :
    List String × Nat :=
  if x.2.isEmpty then acc
  else (acc.1 ++ headerLine x.1 x.2.length :: entriesLines x.2,
        acc.2 + x.2.length)

/-- Source `format_digest(grouped_entries)`. -/
def format_digest (g : GroupedResults) : String :=
  if g.all fun x => x.2.isEmpty then noMatchBody
  else
    let r := g.foldl digestStep ([introLine], 0)
    String.intercalate "\n" (r.1 ++ [totalLine r.2])

/-- Modelled from the spec (for the internal-consistency claim on the
formatter): the digest body assembled declaratively, where each non-empty
group contributes a header showing the length of exactly the entry list
rendered under it, and the trailing line shows the sum of the group
sizes. -/
def format_digest_spec (g : GroupedResults) : String :=
  String.intercalate "\n"
    (introLine ::
      ((g.filter fun x => !x.2.isEmpty).flatMap fun x =>
          headerLine x.1 x.2.length :: entriesLines x.2)
      ++ [totalLine ((g.map fun x => x.2.length).sum)])

-- ---------- mail sending ----------

inductive SmtpError where
  | connect
  | starttls
  | auth
  | send
  | missingCreds
deriving DecidableEq, Repr

/-- Network-visible events of one run. -/
inductive NetEvent where
  | feedFetch (url : String)
  | smtpConnect
  | smtpStarttls
  | smtpLogin
  | smtpSend
deriving DecidableEq, Repr

/-- The mail relay's observable behaviour (which steps succeed). -/
structure SmtpBehavior where
  connectOk : Bool
  starttlsOk : Bool
  loginOk : String → String → Bool
  sendOk : Bool

/-- The body of the `try` block in `send_email`: connect, STARTTLS, login,
one `sendmail` call.  Calling `login` with a missing (`None`) credential
raises on the client side, after the connection is already open; the
trace records each network step actually reached. -/
def smtpAttempt (b : SmtpBehavior) (user pwd : Option String) :
    Except SmtpError Unit × List NetEvent :=
  if !b.connectOk then (.error .connect, [.smtpConnect])
  else if !b.starttlsOk then (.error .starttls, [.smtpConnect, .smtpStarttls])
  else
    match user, pwd with
    | some u, some p =>
      if !b.loginOk u p then
        (.error .auth, [.smtpConnect, .smtpStarttls, .smtpLogin])
      else if !b.sendOk then
        (.error .send, [.smtpConnect, .smtpStarttls, .smtpLogin, .smtpSend])
      else (.ok (), [.smtpConnect, .smtpStarttls, .smtpLogin, .smtpSend])
    | _, _ =>
      (.error .missingCreds, [.smtpConnect, .smtpStarttls, .smtpLogin])

/-- Source `send_email(subject, body)`: the `except` clause prints the error and
then re-raises (`raise`), so the failure is propagated unchanged. -/
def send_email (b : SmtpBehavior) (user pwd : Option String) :
    Except SmtpError Unit × List NetEvent :=
  match smtpAttempt b user pwd with
  | (.ok (), tr) => (.ok (), tr)
  | (.error e, tr) => (.error e, tr)

-- ---------- main flow ----------

/-- One iteration of the main loop: accumulate the group's results and
bump `total_groups_with_hits` when the (pre-deduplication) result list is
non-empty. -/
def mainStep (fetch : String → List RawEntry) (startDate : String) (strict : Bool)
    (acc : GroupedResults × Nat) (x : String × List String) : GroupedResults × Nat :=
  let results := search_group fetch startDate strict x.1 x.2
  (acc.1 ++ [(x.1, results)],
   if results.isEmpty then acc.2 else acc.2 + 1)

/-- The search phase of `__main__`: `all_grouped` and
`total_groups_with_hits`. -/
def runGroups (fetch : String → List RawEntry) (startDate : String)
    (strict : Bool) : GroupedResults × Nat :=
  KEYWORD_GROUPS.foldl (mainStep fetch startDate strict) ([], 0)

def subjectOf (today : String) (hits : Nat) : String :=
  "📬 arXiv Digest – " ++ today ++ " | " ++ toString hits ++ " Groups Matched"

/-- The subject line built in `__main__`. -/
def mainSubject (fetch : String → List RawEntry) (startDate : String)
    (strict : Bool) (today : String) : String :=
  subjectOf today (runGroups fetch startDate strict).2

/-- The number of groups with at least one match in a `GroupedResults`. -/
def countNonEmpty (g : GroupedResults) : Nat :=
  (g.filter fun x => !x.2.isEmpty).length

/-- The feed-fetch events of one run: one query per keyword, in group then
keyword order, performed unconditionally before any mail step. -/
def fetchEvents : List NetEvent :=
  (KEYWORD_GROUPS.flatMap fun x => x.2).map fun kw => .feedFetch (buildUrl kw)

set_option linter.unusedVariables false

/-- The whole run as result plus network-event trace, with the sender
credentials read from the environment (`none` = variable absent).  The
source performs every feed query before `send_email` is reached and has
no startup check on the credentials; the mail outcome does not depend on
the fetched contents. -/
def mainRun (env : Option String × Option String)
    (fetch : String → List RawEntry) (b : SmtpBehavior) :
    Except SmtpError Unit × List NetEvent :=
  let r := send_email b env.1 env.2
  (r.1, fetchEvents ++ r.2)

-- ---------- concrete oracles used in closed statements ----------

/-- A feed entry whose abstract mentions `SiN`. -/
def dupEntryA : RawEntry :=
  { title := "Alpha Result", summary := "about SiN devices", authors := ["A"],
    link := "L1", published := "2099-01-01",
    tags := some [.str "physics.optics"] }

/-- A feed entry with the same title up to normalisation as `dupEntryA`,
whose abstract mentions `single photon` (and hence also the substring
`SiN`, case-insensitively). -/
def dupEntryB : RawEntry :=
  { title := "alpha result", summary := "about single photon pairs",
    authors := ["B"], link := "L2", published := "2099-01-01",
    tags := some [.str "quant-ph"] }

/-- A feed oracle returning the two duplicate-titled entries for every
query. -/
def dupFetch : String → List RawEntry := fun _ => [dupEntryA, dupEntryB]

/-- A feed oracle returning no entries. -/
def emptyFetch : String → List RawEntry := fun _ => []

/-- A mail relay on which every step succeeds. -/
def smtpAllOk : SmtpBehavior :=
  { connectOk := true, starttlsOk := true,
    loginOk := fun _ _ => true, sendOk := true }

-- ---------- helper lemmas: deduplication ----------

def keysOf (ps : List Paper) : List String :=
  ps.map fun p => normTitle p.title

theorem dedupPapers_fst_eq_firstOcc (ps : List Paper) :
    ∀ seen, (dedupPapers seen ps).1 = firstOccurrenceFilter seen ps := by
  induction ps with
  | nil => intro seen; rfl
  | cons p ps ih =>
    intro seen
    simp only [dedupPapers, firstOccurrenceFilter]
    split
    · exact ih seen
    · simp [ih]

theorem dedupPapers_append (ps : List Paper) :
    ∀ seen qs, dedupPapers seen (ps ++ qs) =
      ((dedupPapers seen ps).1 ++ (dedupPapers (dedupPapers seen ps).2 qs).1,
       (dedupPapers (dedupPapers seen ps).2 qs).2) := by
  induction ps with
  | nil => intro seen qs; simp [dedupPapers]
  | cons p ps ih =>
    intro seen qs
    simp only [List.cons_append, dedupPapers]
    split
    · exact ih seen qs
    · simp [ih]

theorem dedupPapers_idem (ps : List Paper) :
    ∀ seen, dedupPapers seen (dedupPapers seen ps).1 = dedupPapers seen ps := by
  induction ps with
  | nil => intro seen; rfl
  | cons p ps ih =>
    intro seen
    simp only [dedupPapers]
    split
    · exact ih seen
    · simp only [dedupPapers]
      rw [if_neg (by assumption)]
      simp [ih]

theorem dedupPapers_sublist (ps : List Paper) :
    ∀ seen, (dedupPapers seen ps).1.Sublist ps := by
  induction ps with
  | nil => intro seen; simp [dedupPapers]
  | cons p ps ih =>
    intro seen
    simp only [dedupPapers]
    split
    · exact (ih seen).cons p
    · exact (ih _).cons₂ p

theorem dedupPapers_keys (ps : List Paper) :
    ∀ seen, (keysOf (dedupPapers seen ps).1).Nodup ∧
      ∀ k ∈ keysOf (dedupPapers seen ps).1, k ∉ seen := by
  induction ps with
  | nil => intro seen; simp [dedupPapers, keysOf]
  | cons p ps ih =>
    intro seen
    simp only [dedupPapers]
    split
    · exact ih seen
    · rename_i hnot
      obtain ⟨hnd, hout⟩ := ih (normTitle p.title :: seen)
      constructor
      · simp only [keysOf, List.map_cons, List.nodup_cons]
        refine ⟨fun hmem => ?_, hnd⟩
        exact hout _ hmem (List.mem_cons_self _ _)
      · intro k hk
        simp only [keysOf, List.map_cons, List.mem_cons] at hk
        rcases hk with rfl | hk
        · exact hnot
        · intro hks
          exact hout _ hk (List.mem_cons_of_mem _ hks)

theorem dedupGroups_keys_eq (gs : GroupedResults) :
    ∀ seen, (dedupGroups seen gs).1.map Prod.fst = gs.map Prod.fst := by
  induction gs with
  | nil => intro seen; rfl
  | cons x rest ih =>
    intro seen
    obtain ⟨n, ps⟩ := x
    simp [dedupGroups, ih]

theorem dedupGroups_idem (gs : GroupedResults) :
    ∀ seen, dedupGroups seen (dedupGroups seen gs).1 = dedupGroups seen gs := by
  induction gs with
  | nil => intro seen; rfl
  | cons x rest ih =>
    intro seen
    obtain ⟨n, ps⟩ := x
    simp only [dedupGroups]
    rw [dedupPapers_idem, ih]

theorem dedupGroups_flatten (gs : GroupedResults) :
    ∀ seen, flattenPapers (dedupGroups seen gs).1 =
      (dedupPapers seen (flattenPapers gs)).1 := by
  induction gs with
  | nil => intro seen; rfl
  | cons x rest ih =>
    intro seen
    obtain ⟨n, ps⟩ := x
    simp only [dedupGroups, flattenPapers, List.flatMap_cons]
    rw [dedupPapers_append]
    simp only [flattenPapers] at ih
    rw [ih]

theorem dedupGroups_sublists (gs : GroupedResults) :
    ∀ seen, List.Forall₂ (fun a b => a.1 = b.1 ∧ b.2.Sublist a.2)
      gs (dedupGroups seen gs).1 := by
  induction gs with
  | nil => intro seen; simp [dedupGroups]
  | cons x rest ih =>
    intro seen
    obtain ⟨n, ps⟩ := x
    simp only [dedupGroups]
    exact List.Forall₂.cons ⟨rfl, dedupPapers_sublist ps seen⟩ (ih _)

-- ---------- helper lemmas: main loop, formatter, mailer ----------

theorem runGroups_foldl (f : String → List RawEntry) (sd : String) (st : Bool)
    (gs : List (String × List String)) :
    ∀ (acc : GroupedResults) (n : Nat),
      gs.foldl (mainStep f sd st) (acc, n) =
        (acc ++ gs.map fun x => (x.1, search_group f sd st x.1 x.2),
         n + countNonEmpty (gs.map fun x => (x.1, search_group f sd st x.1 x.2))) := by
  induction gs with
  | nil => intro acc n; simp [countNonEmpty]
  | cons x gs ih =>
    intro acc n
    by_cases h : (search_group f sd st x.1 x.2).isEmpty
    · simp [mainStep, h, ih, countNonEmpty, List.filter_cons]
    · simp [mainStep, h, ih, countNonEmpty, List.filter_cons,
        Nat.add_comm, Nat.add_left_comm, Nat.add_assoc]

theorem digest_foldl (gs : GroupedResults) :
    ∀ (ls : List String) (t : Nat),
      gs.foldl digestStep (ls, t) =
        (ls ++ (gs.filter fun x => !x.2.isEmpty).flatMap
            (fun x => headerLine x.1 x.2.length :: entriesLines x.2),
         t + (gs.map fun x => x.2.length).sum) := by
  induction gs with
  | nil => intro ls t; simp
  | cons x gs ih =>
    intro ls t
    by_cases h : x.2.isEmpty
    · have hx : x.2 = [] := List.isEmpty_iff.mp h
      simp [digestStep, h, ih, List.filter_cons, hx]
    · simp [digestStep, h, ih, List.filter_cons,
        Nat.add_comm, Nat.add_left_comm, Nat.add_assoc]

theorem send_email_eq_smtpAttempt (b : SmtpBehavior) (u p : Option String) :
    send_email b u p = smtpAttempt b u p := by
  rcases h : smtpAttempt b u p with ⟨res, tr⟩
  cases res with
  | ok v => cases v; simp [send_email, h]
  | error e => simp [send_email, h]

theorem smtpAttempt_trace_cases (b : SmtpBehavior) (u p : Option String) :
    (smtpAttempt b u p).2 = [.smtpConnect] ∨
    (smtpAttempt b u p).2 = [.smtpConnect, .smtpStarttls] ∨
    (smtpAttempt b u p).2 = [.smtpConnect, .smtpStarttls, .smtpLogin] ∨
    (smtpAttempt b u p).2 =
      [.smtpConnect, .smtpStarttls, .smtpLogin, .smtpSend] := by
  unfold smtpAttempt
  by_cases hc : b.connectOk
  · by_cases hs : b.starttlsOk
    · simp only [hc, hs, Bool.not_true, Bool.false_eq_true, if_false]
      cases u with
      | none => simp
      | some uu =>
        cases p with
        | none => simp
        | some pp =>
          by_cases hl : b.loginOk uu pp
          · by_cases hsend : b.sendOk <;> simp [hl, hsend]
          · simp [hl]
    · simp [hc, hs]
  · simp [hc]

theorem fetchEvents_no_smtp (ev : NetEvent) :
    ev ∈ fetchEvents → ∃ url, ev = .feedFetch url := by
  intro h
  simp only [fetchEvents, List.mem_map] at h
  obtain ⟨kw, _, rfl⟩ := h
  exact ⟨buildUrl kw, rfl⟩

theorem fetchEvents_count_send : fetchEvents.count NetEvent.smtpSend = 0 := by
  rw [List.count_eq_zero]
  intro h
  obtain ⟨url, heq⟩ := fetchEvents_no_smtp _ h
  exact NetEvent.noConfusion heq

theorem smtpAttempt_missing_creds (b : SmtpBehavior) (u p : Option String)
    (h : u = none ∨ p = none) : (smtpAttempt b u p).1 ≠ .ok () := by
  unfold smtpAttempt
  by_cases hc : b.connectOk
  · by_cases hs : b.starttlsOk
    · simp only [hc, hs, Bool.not_true, Bool.false_eq_true, if_false]
      rcases h with rfl | rfl
      · simp
      · cases u <;> simp
    · simp [hc, hs]
  · simp [hc]

-- ---------- claim theorems ----------

/-- C1: `deduplicate_grouped_entries` is a stable first-occurrence-wins
filter on normalized titles over the flattened sequence of matches in
group order then discovery order, with one seen-set shared across all
groups: the output has the same group keys as the input (empty groups
included), its flattening equals the first-occurrence-wins filter of the
input's flattening, each normalized title occurs at most once in the
output, and each group's output list is a sublist of that same group's
input list (so a retained match stays in the group that first produced
it). -/
theorem dedup_first_occurrence_wins (g : GroupedResults) :
    (deduplicate_grouped_entries g).map Prod.fst = g.map Prod.fst ∧
    flattenPapers (deduplicate_grouped_entries g) =
      firstOccurrenceFilter [] (flattenPapers g) ∧
    (keysOf (flattenPapers (deduplicate_grouped_entries g))).Nodup ∧
    List.Forall₂ (fun a b => a.1 = b.1 ∧ b.2.Sublist a.2)
      g (deduplicate_grouped_entries g) := by
  refine ⟨dedupGroups_keys_eq g [], ?_, ?_, dedupGroups_sublists g []⟩
  · rw [deduplicate_grouped_entries, dedupGroups_flatten,
      dedupPapers_fst_eq_firstOcc]
  · rw [deduplicate_grouped_entries, dedupGroups_flatten]
    exact (dedupPapers_keys (flattenPapers g) []).1

/-- C8: the deduplicator is idempotent — applying
`deduplicate_grouped_entries` to its own output returns that output
unchanged. -/
theorem dedup_idempotent (g : GroupedResults) :
    deduplicate_grouped_entries (deduplicate_grouped_entries g) =
      deduplicate_grouped_entries g := by
  unfold deduplicate_grouped_entries
  rw [dedupGroups_idem]

/-- C9: with strict-category mode disabled, `is_category_allowed` returns
`True` for every entry, so category tags never cause exclusion. -/
theorem strict_mode_off_always_allowed (e : RawEntry) :
    is_category_allowed false e = true := rfl

/-- C5: an entry whose published date (date portion only) is strictly
before the lookback cutoff date is excluded by the entry filter, whatever
the keyword, the group, or the strict-mode setting — in particular even
when the keyword does match its title or abstract. -/
theorem old_entry_excluded (startDate : String) (strict : Bool)
    (groupName kw : String) (e : RawEntry)
    (h : pyLt (splitHeadT e.published) startDate = true) :
    entryFilter startDate strict groupName kw e = none := by
  have hle : pyLe startDate (splitHeadT e.published) = false := by
    rw [pyLe, h]
    rfl
  simp only [entryFilter, hle, Bool.false_eq_true, if_false]

/-- Witness for C5: a concrete entry published before the cutoff, whose
title does contain the keyword, is still excluded. -/
theorem old_entry_excluded_witness :
    pyLt (splitHeadT (RawEntry.mk "SiN waveguides" "a SiN study" ["A"] "L"
        "2020-05-05" (some [.str "physics.optics"])).published)
      "2026-01-01" = true ∧
    entryFilter "2026-01-01" true "G" "SiN"
      (RawEntry.mk "SiN waveguides" "a SiN study" ["A"] "L" "2020-05-05"
        (some [.str "physics.optics"])) = none :=
  ⟨by decide,
   old_entry_excluded "2026-01-01" true "G" "SiN" _ (by decide)⟩

/-- C6: for an entry whose `tags` attribute is missing, the raised
exception is caught and the category check is treated as failed (with the
configured strict mode), so the entry filter excludes the entry for every
keyword instead of crashing the run. -/
theorem malformed_entry_recovered (e : RawEntry) (h : e.tags = none) :
    extract_categories e = .error () ∧
    is_category_allowed STRICT_CATEGORY_MODE e = false ∧
    ∀ startDate groupName kw,
      entryFilter startDate STRICT_CATEGORY_MODE groupName kw e = none := by
  have hext : extract_categories e = .error () := by
    unfold extract_categories
    rw [h]
  have hcat : is_category_allowed STRICT_CATEGORY_MODE e = false := by
    unfold is_category_allowed
    rw [hext]
    rfl
  refine ⟨hext, hcat, fun startDate groupName kw => ?_⟩
  simp [entryFilter, hcat]

/-- Witness for C6: a concrete entry record without a `tags` field is
excluded for a keyword that its abstract does match. -/
theorem malformed_entry_recovered_witness :
    extract_categories
        (RawEntry.mk "T" "a SiN study" ["A"] "L" "2099-01-01" none) = .error () ∧
    is_category_allowed STRICT_CATEGORY_MODE
        (RawEntry.mk "T" "a SiN study" ["A"] "L" "2099-01-01" none) = false ∧
    ∀ startDate groupName kw,
      entryFilter startDate STRICT_CATEGORY_MODE groupName kw
        (RawEntry.mk "T" "a SiN study" ["A"] "L" "2099-01-01" none) = none :=
  malformed_entry_recovered _ rfl

/-- C7: when every group of the (deduplicated) results is empty, the
formatter returns exactly the fixed no-new-papers body — no intro line,
no group headers, no total-count line. -/
theorem all_empty_fixed_body (g : GroupedResults)
    (h : ∀ x ∈ g, x.2 = []) :
    format_digest g = noMatchBody := by
  unfold format_digest
  rw [if_pos]
  rw [List.all_eq_true]
  intro x hx
  rw [h x hx]
  rfl

/-- Witness for C7: two named groups, both empty, give exactly the fixed
body. -/
theorem all_empty_fixed_body_witness :
    format_digest [("A", []), ("B", [])] = noMatchBody :=
  all_empty_fixed_body _ (by decide)

/-- C2 counterexample: a feed on which two groups have a pre-deduplication
match but whose duplicate title empties the second group during
deduplication.  The subject produced by the main flow says `2 Groups
Matched`, while only `1` group has a match in the deduplicated results
handed to the formatter — so the subject does not embed the
post-deduplication count. -/
theorem subject_count_counterexample :
    mainSubject dupFetch "2000-01-01" true "2026-10-12" =
      subjectOf "2026-10-12" 2 ∧
    countNonEmpty (deduplicate_grouped_entries
      (runGroups dupFetch "2000-01-01" true).1) = 1 ∧
    mainSubject dupFetch "2000-01-01" true "2026-10-12" ≠
      subjectOf "2026-10-12" (countNonEmpty (deduplicate_grouped_entries
        (runGroups dupFetch "2000-01-01" true).1)) := by
  refine ⟨by decide, by decide, by decide⟩

/-- C2 (amended): the subject line embeds the run date and the number of
groups that had at least one match in the accumulated results *before*
deduplication (`total_groups_with_hits` is incremented in the search
loop, before `deduplicate_grouped_entries` runs). -/
theorem subject_counts_pre_dedup_groups (fetch : String → List RawEntry)
    (startDate : String) (strict : Bool) (today : String) :
    mainSubject fetch startDate strict today =
      subjectOf today (countNonEmpty (runGroups fetch startDate strict).1) := by
  unfold mainSubject runGroups
  rw [runGroups_foldl]
  simp

/-- C3 counterexample: with both secrets absent from the environment, the
run still performs the feed fetches (the first network event is the feed
query for the first keyword) and still opens the SMTP connection; it
fails only afterwards, at the login step — not fatally at startup before
network activity. -/
theorem missing_secrets_counterexample :
    (mainRun (none, none) emptyFetch smtpAllOk).2.head? =
      some (.feedFetch (buildUrl "SiN")) ∧
    NetEvent.smtpConnect ∈ (mainRun (none, none) emptyFetch smtpAllOk).2 ∧
    (mainRun (none, none) emptyFetch smtpAllOk).1 =
      .error .missingCreds := by
  refine ⟨rfl, ?_, rfl⟩
  set_option maxRecDepth 4000 in decide

/-- C3 (amended): when either secret is absent, the run is not stopped
before network activity — every feed fetch still happens — and it then
terminates with a propagated failure from the mail step, never with
success. -/
theorem missing_secrets_fail_at_send (fetch : String → List RawEntry)
    (b : SmtpBehavior) (u p : Option String) (h : u = none ∨ p = none) :
    (mainRun (u, p) fetch b).1 ≠ .ok () ∧
    ∃ rest, (mainRun (u, p) fetch b).2 = fetchEvents ++ rest := by
  constructor
  · have hmain : (mainRun (u, p) fetch b).1 = (smtpAttempt b u p).1 := by
      simp [mainRun, send_email_eq_smtpAttempt]
    rw [hmain]
    exact smtpAttempt_missing_creds b u p h
  · exact ⟨(send_email b u p).2, rfl⟩

/-- Witness for the amended C3 at a concrete input: sender address unset,
password set, empty feed, relay fully functional. -/
theorem missing_secrets_fail_at_send_witness :
    (mainRun (none, some "pw") emptyFetch smtpAllOk).1 ≠ .ok () ∧
    ∃ rest, (mainRun (none, some "pw") emptyFetch smtpAllOk).2 =
      fetchEvents ++ rest :=
  missing_secrets_fail_at_send emptyFetch smtpAllOk none (some "pw")
    (Or.inl rfl)

/-- C4: `send_email` propagates any connect/STARTTLS/login/send failure
unchanged (the `except` clause re-raises), the run's result is exactly
the mail step's result — so a mail failure leaves no success path — and
the run's network trace contains at most one send attempt (no internal
retry). -/
theorem mail_failure_fatal_one_attempt (env : Option String × Option String)
    (fetch : String → List RawEntry) (b : SmtpBehavior) :
    send_email b env.1 env.2 = smtpAttempt b env.1 env.2 ∧
    (mainRun env fetch b).1 = (smtpAttempt b env.1 env.2).1 ∧
    (mainRun env fetch b).2.count NetEvent.smtpSend ≤ 1 := by
  refine ⟨send_email_eq_smtpAttempt b env.1 env.2, ?_, ?_⟩
  · simp [mainRun, send_email_eq_smtpAttempt]
  · have htr : (mainRun env fetch b).2 =
        fetchEvents ++ (smtpAttempt b env.1 env.2).2 := by
      simp [mainRun, send_email_eq_smtpAttempt]
    rw [htr, List.count_append, fetchEvents_count_send]
    rcases smtpAttempt_trace_cases b env.1 env.2 with h | h | h | h <;>
      rw [h] <;> decide

/-- C10: when at least one group has a match, the digest body is
internally consistent: it equals the declaratively assembled body in
which each non-empty group's header shows the length of exactly the
entry list rendered under it, empty groups contribute nothing, and the
trailing line shows the sum of the group sizes. -/
theorem digest_internally_consistent (g : GroupedResults)
    (h : ∃ x ∈ g, x.2 ≠ []) :
    format_digest g = format_digest_spec g := by
  have hall : (g.all fun x => x.2.isEmpty) = false := by
    rcases h with ⟨x, hx, hne⟩
    rw [List.all_eq_false]
    exact ⟨x, hx, by simpa [List.isEmpty_iff] using hne⟩
  unfold format_digest
  rw [hall]
  simp only [Bool.false_eq_true, if_false]
  rw [digest_foldl]
  unfold format_digest_spec
  simp

/-- Witness for C10: one non-empty group and one empty group. -/
theorem digest_internally_consistent_witness :
    (∃ x ∈ [("A", [Paper.mk "T" "Au" "S" "L" "K" "A"]), ("B", ([] : List Paper))],
      x.2 ≠ []) ∧
    format_digest [("A", [Paper.mk "T" "Au" "S" "L" "K" "A"]), ("B", [])] =
      format_digest_spec [("A", [Paper.mk "T" "Au" "S" "L" "K" "A"]), ("B", [])] :=
  ⟨⟨("A", [Paper.mk "T" "Au" "S" "L" "K" "A"]), by decide, by decide⟩,
   digest_internally_consistent _
     ⟨("A", [Paper.mk "T" "Au" "S" "L" "K" "A"]), by decide, by decide⟩⟩

end ArxivDigest
